import Mathlib

/-!
Shallow embedding of the QuixBugs automated code-correction harness
(`repair_agent.py`).  Python values are modelled by an inductive `PyVal`
(Python lists are encoded as `pynil`/`pycons` chains so that equality stays
decidable), the filesystem by a list of file names, candidate modules by
the function bindings evaluating their text produces, and each harness
function is translated clause-by-clause from the source.
-/

/-- Model of a Python value, as used in test-case inputs and outputs.
A Python list `[a, b]` is encoded as `pycons a (pycons b pynil)`.
Equality is deep structural equality, matching Python `==` on these shapes. -/
inductive PyVal where
  | pynone
  | pybool (b : Bool)
  | pyint (n : Int)
  | pystr (s : List Char)
  | pynil
  | pycons (hd tl : PyVal)
deriving DecidableEq, Repr

/-- `isinstance(v, list)` on the model: `pynil`/`pycons` are the lists. -/
def PyVal.isPyList : PyVal → Bool
  | .pynil => true
  | .pycons _ _ => true
  | _ => false

/-- The elements of an encoded Python list, as a Lean list (the positional
arguments that `func(*test_input)` expands to). -/
def PyVal.elems : PyVal → List PyVal
  | .pycons hd tl => hd :: tl.elems
  | _ => []

/-- One oracle line `[input, expected]`: a test input (scalar or list of
positional arguments, distinguished by shape) and the expected output. -/
structure TestCase where
  input : PyVal
  expected : PyVal
deriving DecidableEq, Repr

/-- A loaded candidate function: takes the positional-argument list and
returns `some` value, or `none` when the invocation raises an exception. -/
abbrev PyFunc : Type := List PyVal → Option PyVal

/-- A candidate module as produced by evaluating candidate source text:
whether the text parses/evaluates without error, and the top-level function
bindings it defines. -/
structure Candidate where
  parses : Bool
  defs : List (String × PyFunc)

/-- Filesystem model: the list of file paths currently present. -/
abbrev FS : Type := List String

def addFile (name : String) (fs : FS) : FS := name :: fs

def removeFile (name : String) (fs : FS) : FS :=
  fs.filter (fun p => p ≠ name)

/-!
## TestCaseStore: `load_test_cases`

The source opens `json_testcases/{algo}.json`, parses each line with
`json.loads`, and catches only `FileNotFoundError` (printing a diagnostic
and returning `[]`).  A `json.loads` failure on any line propagates as an
exception.  The file store maps a path to `some` list of lines, each line
being `some` parsed test case or `none` when that line does not parse.
-/

/-- Errors the loading operations of the harness can surface. -/
inductive LoadTCError where
  | notFound
  | parseError
deriving DecidableEq, Repr

/-- A store of oracle files: each present file is a list of lines; a line is
`some tc` when it parses as `[input, expected]` and `none` when `json.loads`
would raise on it. -/
abbrev OracleFiles : Type := String → Option (List (Option TestCase))

def testcasePath (algo : String) : String :=
  "json_testcases/" ++ algo ++ ".json"

/-- Parse every line; the first unparsable line aborts with `parseError`
(the uncaught `json.loads` exception). -/
def parseLines : List (Option TestCase) → Except LoadTCError (List TestCase)
  | [] => .ok []
  | none :: _ => .error .parseError
  | some tc :: rest =>
    match parseLines rest with
    | .ok tcs => .ok (tc :: tcs)
    | .error e => .error e

/-- `load_test_cases` from the source: on `FileNotFoundError` the handler
prints an error message and returns the empty list (`.ok []`); it never
produces `notFound`. -/
def load_test_cases (files : OracleFiles) (algo : String) :
    Except LoadTCError (List TestCase) :=
  match files (testcasePath algo) with
  | none => .ok []
  | some lines => parseLines lines

/-!
## CandidateLoader and Validator: `validate_fix`

`validate_fix` writes the candidate text to `temp_{algo}.py`, loads it as a
module and resolves the function named `algo` (any exception there is caught
by the outer handler, so no test is ever invoked), then runs every test
case, catching per-test exceptions, and finally removes the temporary file.
The result record keeps, besides the returned pair
`(passed == total, passed)`, the list of test cases actually invoked and
the final filesystem, so that fault-isolation and cleanup can be stated.
-/

/-- Why loading a candidate fails: the text does not evaluate
(`spec.loader.exec_module` raises), or no binding of the algorithm name
exists afterwards (`getattr` raises `AttributeError`). -/
inductive LoadError where
  | parseFailure
  | nameNotFound
deriving DecidableEq, Repr

/-- Resolve the function named `algo` from the evaluated candidate module:
`exec_module` followed by `getattr(module, algo)`. -/
def loadCandidate (algo : String) (c : Candidate) : Except LoadError PyFunc :=
  if c.parses then
    match c.defs.find? (fun d => d.fst = algo) with
    | some d => .ok d.snd
    | none => .error .nameNotFound
  else .error .parseFailure

/-- One test invocation: expand a list-shaped input into positional
arguments, otherwise pass the scalar as the single argument.  `none` models
the invocation raising. -/
def invokeOnCase (func : PyFunc) (tc : TestCase) : Option PyVal :=
  if tc.input.isPyList then func tc.input.elems else func [tc.input]

/-- The contribution of the loop body to `passed_tests`: 1 exactly when the call
returns normally and the result equals the expected output; an exception
(`none`) is caught and scores 0. -/
def scoreCase (func : PyFunc) (tc : TestCase) : Nat :=
  match invokeOnCase func tc with
  | some r => if r = tc.expected then 1 else 0
  | none => 0

def tempFileName (algo : String) : String := "temp_" ++ algo ++ ".py"

/-- Outcome of `validate_fix`: the returned pair (`success`, `passed`) plus
the total, the test cases that were actually invoked, and the filesystem
after the `finally` block ran. -/
structure ValidateOut where
  success : Bool
  passed : Nat
  total : Nat
  invoked : List TestCase
  fs : FS
deriving Repr

/-- `validate_fix` from the source.  The temporary file is written first;
loading happens inside `try`, so a load failure skips the loop (invoking no
test) and falls through to `finally`, which removes the temporary file on
every path; the return value is `(passed_tests == total_tests,
passed_tests)`. -/
def validate_fix (algo : String) (fixed_code : Candidate)
    (test_cases : List TestCase) (fs : FS) : ValidateOut :=
  let fs1 := addFile (tempFileName algo) fs
  let total := test_cases.length
  match loadCandidate algo fixed_code with
  | .error _ =>
    { success := 0 == total, passed := 0, total := total, invoked := [],
      fs := removeFile (tempFileName algo) fs1 }
  | .ok func =>
    let passed := (test_cases.map (scoreCase func)).sum
    { success := passed == total, passed := passed, total := total,
      invoked := test_cases, fs := removeFile (tempFileName algo) fs1 }

/-!
## ExternalTesterBridge: `run_tester_py`

`subprocess.run([... "tester.py", algo], timeout=30)` either returns a
completed process (exit within the timeout), raises `TimeoutExpired`, or
raises some other exception (e.g. a launch failure).  Both handlers print
and return `False`; the success case returns `returncode == 0`.
-/

/-- What launching the external tester for an algorithm can do. -/
inductive ProcOutcome where
  | exited (returncode : Int)
  | timeoutExpired
  | fault
deriving DecidableEq, Repr

/-- The fixed wall-clock timeout (seconds) passed to `subprocess.run`. -/
def TESTER_TIMEOUT : Nat := 30

/-- `run_tester_py` from the source, over the behaviour `runProc` of the
launched process. -/
def run_tester_py (runProc : String → ProcOutcome) (algo : String) : Bool :=
  match runProc algo with
  | .exited rc => rc == 0
  | .timeoutExpired => false
  | .fault => false

/-!
## Candidate extraction: `extract_code_from_response`

The source applies, in order:
1. re.search over the fenced-block pattern (3 backticks, python, newline,
   lazy group, newline, 3 backticks) with re.DOTALL,
   and returns `group(1).strip()` on a match;
2. re.search over the function-definition pattern (def, one or more
   whitespace, one or more word chars, lazy any-chars up to a lookahead for
   blank line, newline-then-word, or end) with re.DOTALL,
   and returns `group(0).strip()` on a match;
3. `response.strip()` otherwise.
The regexes are realised directly over `List Char` with Python leftmost
search semantics; laziness of `.*?` means the shortest completion is taken.
Texts are `List Char` (ASCII `\w` and `\s` classes).
-/

/-- ASCII `\s` (Python `str.strip` whitespace and the `\s` class). -/
def isSpaceChar (c : Char) : Bool :=
  c = ' ' || c = '\t' || c = '\n' || c = '\x0d' || c = '\x0b' || c = '\x0c'

/-- ASCII `\w`: letters, digits, underscore. -/
def isWordChar (c : Char) : Bool :=
  ('a' ≤ c && c ≤ 'z') || ('A' ≤ c && c ≤ 'Z') || ('0' ≤ c && c ≤ '9') || c = '_'

/-- `str.strip()`: drop leading and trailing whitespace. -/
def pyStrip (s : List Char) : List Char :=
  ((s.dropWhile isSpaceChar).reverse.dropWhile isSpaceChar).reverse

/-- Does `l` start with the pattern `pat`? -/
def startsWithL : List Char → List Char → Bool
  | [], _ => true
  | _ :: _, [] => false
  | p :: ps, c :: cs => p = c && startsWithL ps cs

/-- The opening delimiter `<3 backticks>python\n` of the fenced-block regex. -/
def openFence : List Char :=
  ['\x60', '\x60', '\x60', 'p', 'y', 't', 'h', 'o', 'n', '\n']

/-- The closing delimiter `\n<3 backticks>` of the fenced-block regex. -/
def closeFence : List Char := ['\n', '\x60', '\x60', '\x60']

/-- Characters before the first occurrence of `pat`, or `none` when `pat`
does not occur; realises the lazy `(.*?)` followed by the literal `pat`. -/
def takeUntilSub (pat : List Char) : List Char → Option (List Char)
  | [] => if pat.isEmpty then some [] else none
  | c :: rest =>
    if startsWithL pat (c :: rest) then some []
    else match takeUntilSub pat rest with
      | some r => some (c :: r)
      | none => none

/-- The first (leftmost, then lazily shortest) match of the fenced-block
regex: the group between the first viable `openFence` and the earliest
`closeFence` after it. -/
def codeBlockMatch : List Char → Option (List Char)
  | [] => none
  | c :: rest =>
    if startsWithL openFence (c :: rest) then
      match takeUntilSub closeFence ((c :: rest).drop openFence.length) with
      | some content => some content
      | none => codeBlockMatch rest
    else codeBlockMatch rest

/-- The zero-width lookahead `(?=\n\n|\n(?=\w)|\Z)` at the current
position. -/
def stopLookahead : List Char → Bool
  | [] => true
  | '\n' :: '\n' :: _ => true
  | '\n' :: c :: _ => isWordChar c
  | _ => false

/-- The lazy `.*?` before the lookahead: consume characters until the first
position where the lookahead holds (it always holds at the end, by `\Z`). -/
def lazyUntilStop : List Char → List Char
  | [] => []
  | c :: rest => if stopLookahead (c :: rest) then [] else c :: lazyUntilStop rest

/-- Try the function-definition regex anchored at the head of `l`:
`def` then `\s+` then `\w+` then `.*?` up to the lookahead. -/
def funcDefAt (l : List Char) : Option (List Char) :=
  if startsWithL ['d', 'e', 'f'] l then
    let rest := l.drop 3
    let ws := rest.takeWhile isSpaceChar
    if ws.isEmpty then none
    else
      let rest2 := rest.drop ws.length
      let w := rest2.takeWhile isWordChar
      if w.isEmpty then none
      else
        let rest3 := rest2.drop w.length
        some (['d', 'e', 'f'] ++ ws ++ w ++ lazyUntilStop rest3)
  else none

/-- Leftmost match of the function-definition regex (once `def\s+\w+`
matches, the lookahead always eventually holds, so that start wins). -/
def funcDefMatch : List Char → Option (List Char)
  | [] => none
  | c :: rest =>
    match funcDefAt (c :: rest) with
    | some m => some m
    | none => funcDefMatch rest

/-- `extract_code_from_response` from the source: fenced block first, then
function definition, then the whole response, each stripped. -/
def extract_code_from_response (response : List Char) : List Char :=
  match codeBlockMatch response with
  | some content => pyStrip content
  | none =>
    match funcDefMatch response with
    | some m => pyStrip m
    | none => pyStrip response

/-!
## DefectClassifier: `analyze_defect_pattern`
-/

/-- The Python substring test (sub in s) on the model texts. -/
def containsSub (pat s : List Char) : Bool :=
  (takeUntilSub pat s).isSome

/-- `analyze_defect_pattern` from the source: purely lexical cues on the
buggy and fixed texts. -/
def analyze_defect_pattern (buggy_code fixed_code : List Char) : String :=
  if containsSub "range(".toList buggy_code
      && containsSub "range(".toList fixed_code then "off-by-one-error"
  else if containsSub "==".toList buggy_code
      && containsSub "!=".toList fixed_code then "incorrect-operator"
  else if containsSub ">".toList buggy_code
      && containsSub "<".toList fixed_code then "boundary-condition"
  else "unknown-pattern"

/-!
## Per-algorithm driver: `repair_single_program`

The driver loads the buggy code (early error dict if missing), loads the
test cases (early error dict if the list is falsy, i.e. empty), asks the
generator for a response, extracts the candidate, validates it, runs the
external tester, saves the candidate under `repaired_programs/`, classifies
the defect and assembles the result dict.  The external generator and the
Python evaluation of extracted text are opaque to the harness, so they
enter the model as parameters: `generate` (prompt-to-response behaviour,
keyed by algorithm) and `compile` (text to candidate module).
-/

/-- The per-algorithm result dict in its full form. -/
structure RepairRecord where
  algorithm : String
  success : Bool
  passed_tests : Nat
  total_tests : Nat
  defect_pattern : String
  fixed_code : List Char
deriving DecidableEq, Repr

/-- What `repair_single_program` returns: one of the two early error dicts
(`{"success": False, "error": ...}`) or the full record. -/
inductive RepairOutcome where
  | earlyError (error : String)
  | record (r : RepairRecord)
deriving Repr

/-- The environment a repair attempt runs against: the stored buggy
programs, the oracle files, the response text of the generator per algorithm,
the meaning of extracted text as a candidate module, and the external
tester process behaviour. -/
structure RepairEnv where
  buggy_programs : String → Option (List Char)
  oracle_files : OracleFiles
  generate : String → List Char
  compile : List Char → Candidate
  runProc : String → ProcOutcome

def repairedPath (algo : String) : String :=
  "repaired_programs/" ++ algo ++ ".py"

/-- `repair_single_program` from the source.  `load_test_cases` returning
`.error` models an uncaught `json.loads` exception escaping the call, so
the whole attempt propagates it (`Except.error`); the two `if not ...`
guards yield the early error dicts; otherwise the full record is built with
`success = validation_success and tester_success`. -/
def repair_single_program (env : RepairEnv) (algo : String) (fs : FS) :
    Except LoadTCError (RepairOutcome × FS) :=
  match env.buggy_programs algo with
  | none => .ok (.earlyError "Could not load buggy code", fs)
  | some buggy_code =>
    match load_test_cases env.oracle_files algo with
    | .error e => .error e
    | .ok test_cases =>
      if test_cases.isEmpty then
        .ok (.earlyError "Could not load test cases", fs)
      else
        let response := env.generate algo
        let fixed_code := extract_code_from_response response
        let v := validate_fix algo (env.compile fixed_code) test_cases fs
        let tester_success := run_tester_py env.runProc algo
        let fs2 := addFile (repairedPath algo) v.fs
        let defect_pattern := analyze_defect_pattern buggy_code fixed_code
        .ok (.record
          { algorithm := algo
            success := v.success && tester_success
            passed_tests := v.passed
            total_tests := test_cases.length
            defect_pattern := defect_pattern
            fixed_code := fixed_code }, fs2)

/-!
## Batch driver: `repair_all_programs`

The batch loop wraps each `repair_single_program` call in `try/except`: a
normal return is stored under the key of the algorithm, any raised exception is
caught and stored as `{"success": False, "error": str(e)}`, and the loop
moves on to the next algorithm.
-/

/-- One entry of the batch `results` map: the outcome dict, reduced to what
the batch policy inspects (`success`, and the error descriptor if the entry
came from a caught exception). -/
structure ResultEntry where
  success : Bool
  error : Option String
deriving DecidableEq, Repr

/-- The `success` field the stored dict carries. -/
def RepairOutcome.successField : RepairOutcome → Bool
  | .earlyError _ => false
  | .record r => r.success

/-- The error descriptor of the stored dict, if any. -/
def RepairOutcome.errorField : RepairOutcome → Option String
  | .earlyError e => some e
  | .record _ => none

/-- Printable description of a raised exception, `str(e)`. -/
def describeError : LoadTCError → String
  | .notFound => "file not found"
  | .parseError => "JSON parse error"

/-- `repair_all_programs` from the source, threading the filesystem through
the per-algorithm attempts and recording one entry per algorithm: the
returned dict on a normal return, or success=False with the description of the exception when the attempt raised. -/
def repair_all_programs (env : RepairEnv) (algorithms : List String)
    (fs : FS) : List (String × ResultEntry) × FS :=
  match algorithms with
  | [] => ([], fs)
  | algo :: rest =>
    match repair_single_program env algo fs with
    | .ok p =>
      let entry : ResultEntry :=
        { success := p.fst.successField, error := p.fst.errorField }
      let res := repair_all_programs env rest p.snd
      ((algo, entry) :: res.fst, res.snd)
    | .error e =>
      let entry : ResultEntry := { success := false, error := some (describeError e) }
      let res := repair_all_programs env rest fs
      ((algo, entry) :: res.fst, res.snd)

/-!
## Concrete fixtures

Small closed instances used by the witness theorems: a correct two-argument
sum candidate, a variant that raises on one particular input, and a couple
of oracle lines of shape `[[a, b], c]`.
-/

/-- A correct candidate function: returns the sum of its two integer
arguments, raising (`none`) on any other argument shape. -/
def sumFunc : PyFunc := fun args =>
  match args with
  | [PyVal.pyint a, PyVal.pyint b] => some (PyVal.pyint (a + b))
  | _ => none

/-- A candidate function that raises precisely on the input `(3, 5)` and
sums correctly otherwise. -/
def faultySumFunc : PyFunc := fun args =>
  match args with
  | [PyVal.pyint 3, PyVal.pyint 5] => none
  | [PyVal.pyint a, PyVal.pyint b] => some (PyVal.pyint (a + b))
  | _ => none

/-- The oracle line `[[a, b], c]`. -/
def tcPair (a b c : Int) : TestCase :=
  { input := PyVal.pycons (PyVal.pyint a) (PyVal.pycons (PyVal.pyint b) PyVal.pynil)
    expected := PyVal.pyint c }

def sumTests : List TestCase := [tcPair 3 5 8, tcPair 2 2 4]

def candSum : Candidate := { parses := true, defs := [("sum_two", sumFunc)] }

def candFaulty : Candidate := { parses := true, defs := [("sum_two", faultySumFunc)] }

def candNoDef : Candidate := { parses := true, defs := [] }

/-!
## Theorems
-/

/-- C1: For every candidate unit and oracle set, the result of the Validator has
`success` true iff `passedCount = totalCount`, where `totalCount` is the
length of the oracle set; in particular `success` implies
`passedCount = totalCount`. -/
theorem validate_success_iff_all_passed (algo : String) (code : Candidate)
    (tcs : List TestCase) (fs : FS) :
    ((validate_fix algo code tcs fs).success = true ↔
      (validate_fix algo code tcs fs).passed = (validate_fix algo code tcs fs).total) ∧
    (validate_fix algo code tcs fs).total = tcs.length := by
  cases h : loadCandidate algo code <;> simp [validate_fix, h]

/-- C5: on every exit path of `validate_fix` — successful load or load
failure of either kind — the temporary file holding the candidate source is
absent from the resulting filesystem. -/
theorem temp_file_removed_on_every_path (algo : String) (code : Candidate)
    (tcs : List TestCase) (fs : FS) :
    tempFileName algo ∉ (validate_fix algo code tcs fs).fs := by
  cases h : loadCandidate algo code <;>
    simp [validate_fix, h, removeFile, List.mem_filter]

/-- C10: invoked with an empty oracle set, the Validator returns
`success = true` and `passedCount = 0`: the zero-oracle case is decided as
(vacuous) success by the validation operation itself. -/
theorem empty_oracle_set_is_success (algo : String) (code : Candidate) (fs : FS) :
    (validate_fix algo code [] fs).success = true ∧
    (validate_fix algo code [] fs).passed = 0 := by
  cases h : loadCandidate algo code <;> simp [validate_fix, h]

/-- C6: external verification returns true exactly when the launched
process exits with status 0 within the timeout; on timeout or on any other
fault it returns false rather than propagating — the function is total over
every process outcome. -/
theorem tester_true_iff_clean_exit (runProc : String → ProcOutcome) (algo : String) :
    (run_tester_py runProc algo = true ↔ runProc algo = ProcOutcome.exited 0) ∧
    (runProc algo = ProcOutcome.timeoutExpired → run_tester_py runProc algo = false) ∧
    (runProc algo = ProcOutcome.fault → run_tester_py runProc algo = false) := by
  cases h : runProc algo <;> simp [run_tester_py, h]

/-- Witness for C6 at a concrete process behaviour: a timeout degrades to
`false`. -/
theorem tester_true_iff_clean_exit_witness :
    run_tester_py (fun _ => ProcOutcome.timeoutExpired) "gcd" = false :=
  (tester_true_iff_clean_exit (fun _ => ProcOutcome.timeoutExpired) "gcd").2.1 rfl

/-- C3: when the candidate text does not parse or defines no function named
`algo`, loading fails with a `LoadError` and the Validator invokes no test
case at all for that attempt. -/
theorem load_failure_skips_validator (algo : String) (code : Candidate)
    (tcs : List TestCase) (fs : FS)
    (h : code.parses = false ∨ (code.defs.find? fun d => d.fst = algo) = none) :
    (∃ e, loadCandidate algo code = Except.error e) ∧
    (validate_fix algo code tcs fs).invoked = [] ∧
    (validate_fix algo code tcs fs).passed = 0 := by
  have hload : ∃ e, loadCandidate algo code = Except.error e := by
    rcases h with h | h
    · exact ⟨.parseFailure, by simp [loadCandidate, h]⟩
    · by_cases hp : code.parses
      · exact ⟨.nameNotFound, by simp [loadCandidate, hp, h]⟩
      · exact ⟨.parseFailure, by simp [loadCandidate, hp]⟩
  obtain ⟨e, he⟩ := hload
  exact ⟨⟨e, he⟩, by simp [validate_fix, he], by simp [validate_fix, he]⟩

/-- Witness for C3: a parsing candidate with no definition of `sum_two` is
never run against any test. -/
theorem load_failure_skips_validator_witness :
    (∃ e, loadCandidate "sum_two" candNoDef = Except.error e) ∧
    (validate_fix "sum_two" candNoDef sumTests []).invoked = [] ∧
    (validate_fix "sum_two" candNoDef sumTests []).passed = 0 :=
  load_failure_skips_validator "sum_two" candNoDef sumTests [] (Or.inr rfl)

/-- The per-test score is the indicator of an exact match: an exception
scores 0, a wrong value scores 0, the expected value scores 1. -/
theorem scoreCase_eq_indicator (func : PyFunc) (tc : TestCase) :
    scoreCase func tc =
      if invokeOnCase func tc = some tc.expected then 1 else 0 := by
  unfold scoreCase
  cases h : invokeOnCase func tc <;> simp

/-- Summing an indicator over a list counts the satisfying elements. -/
theorem sum_map_indicator {α : Type} (p : α → Prop) [DecidablePred p]
    (l : List α) :
    (l.map (fun a => if p a then 1 else 0)).sum = l.countP (fun a => p a) := by
  induction l with
  | nil => rfl
  | cons x xs ih =>
    by_cases h : p x <;> simp [List.countP_cons, h, ih, Nat.add_comm]

/-- C2: once the candidate loads, the Validator invokes every test case of
the oracle set — a fault on one test (the invocation returning `none`) never
aborts the run — and `passedCount` counts exactly the tests whose returned
value equals the expected value. -/
theorem validator_isolates_faults (algo : String) (code : Candidate)
    (tcs : List TestCase) (fs : FS) (func : PyFunc)
    (h : loadCandidate algo code = Except.ok func) :
    (validate_fix algo code tcs fs).invoked = tcs ∧
    (validate_fix algo code tcs fs).passed =
      tcs.countP (fun tc => invokeOnCase func tc = some tc.expected) := by
  refine ⟨by simp [validate_fix, h], ?_⟩
  have hmap : tcs.map (scoreCase func) =
      tcs.map (fun tc => if invokeOnCase func tc = some tc.expected then 1 else 0) :=
    List.map_congr_left (fun tc _ => scoreCase_eq_indicator func tc)
  simp [validate_fix, h, hmap,
    sum_map_indicator (fun tc => invokeOnCase func tc = some tc.expected) tcs]

/-- Witness for C2: the faulty candidate raises on the first oracle line,
yet the second is still executed and counted. -/
theorem validator_isolates_faults_witness :
    (validate_fix "sum_two" candFaulty sumTests []).invoked = sumTests ∧
    (validate_fix "sum_two" candFaulty sumTests []).passed = 1 := by
  have h := validator_isolates_faults "sum_two" candFaulty sumTests [] faultySumFunc rfl
  exact ⟨h.1, by rw [h.2]; decide⟩

/-- C4 counterexample: with no oracle file present at all, loading the test
cases for `gcd` does not fail with a not-found error — the handler catches
the condition and the call returns the empty oracle set. -/
theorem load_test_cases_absent_not_notFound :
    load_test_cases (fun _ => none) "gcd" = Except.ok [] ∧
    load_test_cases (fun _ => none) "gcd" ≠ Except.error LoadTCError.notFound :=
  ⟨rfl, by simp [load_test_cases]⟩

/-- C4 amended: when the backing oracle file is absent, `load_test_cases`
catches the not-found condition and returns the empty oracle set (after
printing a diagnostic); it never surfaces a `notFound` error. -/
theorem load_test_cases_absent_returns_empty (files : OracleFiles) (algo : String)
    (h : files (testcasePath algo) = none) :
    load_test_cases files algo = Except.ok [] := by
  simp [load_test_cases, h]

/-- Witness for the amended C4 at the empty file store. -/
theorem load_test_cases_absent_returns_empty_witness :
    load_test_cases (fun _ => none) "lis" = Except.ok [] :=
  load_test_cases_absent_returns_empty (fun _ => none) "lis" rfl

/-- C8: candidate extraction follows the ordered fallback exactly: the
(stripped) contents of the fenced code region when the fenced-block regex
matches; otherwise the first function-definition-shaped span when that
regex matches; otherwise the entire raw text, stripped. -/
theorem extraction_ordered_fallback (response : List Char) :
    (∀ content, codeBlockMatch response = some content →
      extract_code_from_response response = pyStrip content) ∧
    (codeBlockMatch response = none →
      ∀ m, funcDefMatch response = some m →
        extract_code_from_response response = pyStrip m) ∧
    (codeBlockMatch response = none → funcDefMatch response = none →
      extract_code_from_response response = pyStrip response) := by
  refine ⟨fun content hc => ?_, fun hc m hf => ?_, fun hc hf => ?_⟩ <;>
    simp [extract_code_from_response, hc]
  · simp [hf]
  · simp [hf]

/-- A response with a fenced block: the explanation and trailer are
discarded and the contents of the block are returned. -/
def respFenced : List Char :=
  ("Here is the corrected code:\n\x60\x60\x60python\ndef plus(a, b):\n" ++
    "    return a + b\n\x60\x60\x60\nThe bug was the operator.").toList

/-- The contents of the fenced block inside `respFenced`. -/
def fencedContent : List Char :=
  "def plus(a, b):\n    return a + b".toList

/-- A response with no fenced block but a function definition followed by a
blank line and prose. -/
def respDefOnly : List Char :=
  "def plus(a, b):\n    return a + b\n\nThe bug was the operator.".toList

/-- The span the function-definition regex captures in `respDefOnly`. -/
def defOnlySpan : List Char :=
  "def plus(a, b):\n    return a + b".toList

/-- A response with neither a fenced block nor a function definition. -/
def respPlain : List Char :=
  "  return a + b  ".toList

/-- Witness for C8: each of the three fallback stages fires on a concrete
response of its shape. -/
theorem extraction_ordered_fallback_witness :
    extract_code_from_response respFenced = pyStrip fencedContent ∧
    extract_code_from_response respDefOnly = pyStrip defOnlySpan ∧
    extract_code_from_response respPlain = pyStrip respPlain :=
  ⟨(extraction_ordered_fallback respFenced).1 fencedContent (by decide),
   (extraction_ordered_fallback respDefOnly).2.1 (by decide) defOnlySpan (by decide),
   (extraction_ordered_fallback respPlain).2.2 (by decide) (by decide)⟩

/-- C9: whenever a repair attempt reaches the full result record, the
overall `success` field of the record is exactly the conjunction of the
Validator `success` and the external-verification boolean. -/
theorem record_success_is_conjunction (env : RepairEnv) (algo : String)
    (fs : FS) (r : RepairRecord) (fs2 : FS) (tcs : List TestCase)
    (htc : load_test_cases env.oracle_files algo = Except.ok tcs)
    (h : repair_single_program env algo fs =
      Except.ok (RepairOutcome.record r, fs2)) :
    r.success =
      ((validate_fix algo
          (env.compile (extract_code_from_response (env.generate algo)))
          tcs fs).success
        && run_tester_py env.runProc algo) := by
  cases hb : env.buggy_programs algo with
  | none => simp [repair_single_program, hb] at h
  | some buggy =>
    by_cases he : tcs.isEmpty
    · simp [repair_single_program, hb, htc, he] at h
    · simp [repair_single_program, hb, htc, he] at h
      rw [← h.1]

/-- Fixture environment for the C9 witness: one oracle line, a fenced
generator response, a compiler that yields the correct sum candidate, and a
cleanly exiting external tester. -/
def wEnv : RepairEnv :=
  { buggy_programs := fun _ => some "x = 1".toList
    oracle_files := fun p =>
      if p = testcasePath "sum_two" then some [some (tcPair 3 5 8)] else none
    generate := fun _ => respFenced
    compile := fun code =>
      if code = fencedContent then candSum else candNoDef
    runProc := fun _ => ProcOutcome.exited 0 }

/-- The record the fixture attempt produces. -/
def wRecord : RepairRecord :=
  { algorithm := "sum_two"
    success := true
    passed_tests := 1
    total_tests := 1
    defect_pattern := "unknown-pattern"
    fixed_code := fencedContent }

/-- The filesystem after the fixture attempt. -/
def wFs2 : FS := ["repaired_programs/sum_two.py"]

/-- Witness for C9 at the fixture environment. -/
theorem record_success_is_conjunction_witness :
    wRecord.success =
      ((validate_fix "sum_two"
          (wEnv.compile (extract_code_from_response (wEnv.generate "sum_two")))
          [tcPair 3 5 8] []).success
        && run_tester_py wEnv.runProc "sum_two") :=
  record_success_is_conjunction wEnv "sum_two" [] wRecord wFs2 [tcPair 3 5 8]
    rfl rfl

/-- A faulting attempt (`load_test_cases` raising) is independent of the
filesystem: it propagates the exception whenever the buggy code loaded. -/
theorem repair_single_program_error (env : RepairEnv) (algo : String)
    (fs : FS) (e : LoadTCError)
    (hb : env.buggy_programs algo ≠ none)
    (ht : load_test_cases env.oracle_files algo = Except.error e) :
    repair_single_program env algo fs = Except.error e := by
  cases hbs : env.buggy_programs algo with
  | none => exact absurd hbs hb
  | some buggy => simp [repair_single_program, hbs, ht]

/-- C7: the batch records exactly one entry per algorithm, in order, so no
failure of a single algorithm terminates the run; and every algorithm whose
attempt raises is recorded with `success = false` and the description of
the exception as error descriptor. -/
theorem batch_isolates_failures (env : RepairEnv) (algorithms : List String)
    (fs : FS) :
    ((repair_all_programs env algorithms fs).fst.map Prod.fst = algorithms) ∧
    (∀ algo ∈ algorithms, ∀ e : LoadTCError,
      env.buggy_programs algo ≠ none →
      load_test_cases env.oracle_files algo = Except.error e →
      ((algo, ({ success := false, error := some (describeError e) } : ResultEntry)) ∈
        (repair_all_programs env algorithms fs).fst)) := by
  induction algorithms generalizing fs with
  | nil => simp [repair_all_programs]
  | cons a rest ih =>
    cases h : repair_single_program env a fs with
    | ok p =>
      refine ⟨by simp [repair_all_programs, h, (ih p.snd).1], ?_⟩
      intro algo hmem e hb ht
      rcases List.mem_cons.mp hmem with rfl | hmem'
      · exact absurd h (by simp [repair_single_program_error env algo fs e hb ht])
      · have hm := (ih p.snd).2 algo hmem' e hb ht
        simp only [repair_all_programs, h]
        exact List.mem_cons_of_mem _ hm
    | error e0 =>
      refine ⟨by simp [repair_all_programs, h, (ih fs).1], ?_⟩
      intro algo hmem e hb ht
      rcases List.mem_cons.mp hmem with rfl | hmem'
      · have he : e = e0 :=
          Except.error.inj
            ((repair_single_program_error env algo fs e hb ht).symm.trans h)
        subst he
        simp [repair_all_programs, h]
      · have hm := (ih fs).2 algo hmem' e hb ht
        simp only [repair_all_programs, h]
        exact List.mem_cons_of_mem _ hm

/-- Fixture environment for the C7 witness: the oracle file for `bad` has
an unparsable line, so its attempt raises; `good` has a healthy oracle
file. -/
def wBatchEnv : RepairEnv :=
  { buggy_programs := fun _ => some "x = 1".toList
    oracle_files := fun p =>
      if p = testcasePath "bad" then some [none]
      else if p = testcasePath "good" then some [some (tcPair 2 2 4)]
      else none
    generate := fun _ => respFenced
    compile := fun _ => candSum
    runProc := fun _ => ProcOutcome.exited 0 }

/-- Witness for C7: in a batch containing the faulting `bad` between two
healthy algorithms, every algorithm is recorded and `bad` is recorded with
`success = false` and the description of the exception. -/
theorem batch_isolates_failures_witness :
    ((repair_all_programs wBatchEnv ["good", "bad", "good"] []).fst.map Prod.fst
      = ["good", "bad", "good"]) ∧
    (("bad", ({ success := false, error := some (describeError LoadTCError.parseError) } :
        ResultEntry)) ∈
      (repair_all_programs wBatchEnv ["good", "bad", "good"] []).fst) :=
  ⟨(batch_isolates_failures wBatchEnv ["good", "bad", "good"] []).1,
   (batch_isolates_failures wBatchEnv ["good", "bad", "good"] []).2 "bad"
     (by decide) LoadTCError.parseError (by simp [wBatchEnv]) rfl⟩
